import Mathlib

/-!
Verification of the batched key-resolution layer and remote executor of the
graphql-remote-delegation gateway, shallowly embedded from
`src/lib/make_remote_executor.js` (the remote executor, and the gateway's
`StateMeta.batch` resolver configuration: `valuesFromResults` and the
`TransformQuery` `resultTransformer`).

JavaScript values are embedded as follows: an object property that may be
absent (`undefined`) is an `Option`; arrays are `List`s; a thrown exception is
the `.error` branch of `Except String`; accessing a property of `undefined`
(a JS `TypeError`) is likewise an `.error`.  The `stateFipsCode` values and
batching keys are strings in this schema, so JS truthiness of such a value is
"present and not the empty string", and `==` between two strings is string
equality.
-/

deriving instance DecidableEq for Except

namespace RemoteDelegation

/-- A remote record as it appears under `node`/`nodes` in the batch response;
the only field the correlation code reads is `stateFipsCode`, which may be
absent (`none` embeds JS `undefined`). -/
structure Node where
  stateFipsCode : Option String
  deriving DecidableEq, Repr

/-- One entry of an `edges` connection: an object with a `node` record. -/
structure Edge where
  node : Node
  deriving DecidableEq, Repr

/-- One per-key result group handed to `valuesFromResults`: it may expose an
`edges` list, a `nodes` list, both, or neither (`none` embeds an absent
property). -/
structure Group where
  edges : Option (List Edge)
  nodes : Option (List Node)
  deriving DecidableEq, Repr

/-- The raw remote batch response consumed by `resultTransformer`: the
`allFipsCodeStates` payload, which may expose an `edges` and/or a `nodes`
sequence. -/
structure RawResult where
  edges : Option (List Edge)
  nodes : Option (List Node)
  deriving DecidableEq, Repr

/-- JS truthiness of a possibly-absent string value: `undefined` and the empty
string are falsy, every other string is truthy. -/
def truthy : Option String → Bool
  | none => false
  | some s => !(s == "")

/-- The predicate passed to `results.find` inside `valuesFromResults`
(src/lib/make_remote_executor.js lines 139-148), for a fixed `key`:

```js
element => {
  if (element.edges) {
    if (!element.edges[0].node.stateFipsCode) throw new Error("Need stateFipsCode in Query for edges")
    return element.edges[0].node.stateFipsCode == key;
  }
  if (element.nodes) {
    if (!element.nodes[0].stateFipsCode) throw new Error("Need stateFipsCode in Query for nodes")
    return element.nodes[0].stateFipsCode == key;
  }
  throw new Error("Query needs nodes or edges")
}
```

An empty `edges`/`nodes` array is truthy in JS, so the subsequent `[0]` access
on an empty array is a `TypeError`; a present-but-falsy `stateFipsCode`
(the empty string) takes the same throw branch as an absent one. -/
def groupMatches (key : String) (element : Group) : Except String Bool :=
  match element.edges with
  | some edgeList =>
    match edgeList with
    | [] => .error "TypeError: Cannot read properties of undefined (reading node)"
    | e :: _ =>
      match e.node.stateFipsCode with
      | none => .error "Need stateFipsCode in Query for edges"
      | some s => if s == "" then .error "Need stateFipsCode in Query for edges" else .ok (s == key)
  | none =>
    match element.nodes with
    | some nodeList =>
      match nodeList with
      | [] => .error "TypeError: Cannot read properties of undefined (reading stateFipsCode)"
      | n :: _ =>
        match n.stateFipsCode with
        | none => .error "Need stateFipsCode in Query for nodes"
        | some s => if s == "" then .error "Need stateFipsCode in Query for nodes" else .ok (s == key)
    | none => .error "Query needs nodes or edges"

/-- JS `Array.prototype.find` with a predicate that may throw: elements are
examined left to right; the first thrown exception propagates; if no element
satisfies the predicate the result is `undefined` (embedded as `none`). -/
def findE (p : α → Except String Bool) : List α → Except String (Option α)
  | [] => .ok none
  | a :: as =>
    match p a with
    | .error e => .error e
    | .ok true => .ok (some a)
    | .ok false => findE p as

/-- JS `Array.prototype.map` with a callback that may throw: callbacks run
left to right and the first thrown exception propagates. -/
def mapE (f : α → Except String β) : List α → Except String (List β)
  | [] => .ok []
  | a :: as =>
    match f a with
    | .error e => .error e
    | .ok b =>
      match mapE f as with
      | .error e => .error e
      | .ok bs => .ok (b :: bs)

/-- `valuesFromResults` (src/lib/make_remote_executor.js lines 136-152):

```js
(results, keys) => {
  const newresult = keys.map(key => results.find(element => { ... }));
  return newresult;
}
```

One slot per key, in key order; a key with no matching group yields
`undefined` (`none`) in its slot. -/
def valuesFromResults (results : List Group) (keys : List String) :
    Except String (List (Option Group)) :=
  mapE (fun key => findE (groupMatches key) results) keys

/-- `keys.map(key => results.find(...))` when `results` itself may be
`undefined` (as happens when `resultTransformer` returns `undefined`): each
callback invocation then throws a `TypeError` on the `results.find` access, so
a nonempty key list throws and an empty key list maps to `[]`. -/
def valuesFromResultsU (results : Option (List Group)) (keys : List String) :
    Except String (List (Option Group)) :=
  mapE
    (fun key =>
      match results with
      | none => .error "TypeError: Cannot read properties of undefined (reading find)"
      | some rs => findE (groupMatches key) rs)
    keys

/-- The indexed map `nodes.map((n, index) => ({ nodes: n.nodes, ...edges[index] }))`
of `resultTransformer`: spreading `edges[index]` copies its `edges` property
when the index is in range and contributes nothing when it is out of range
(spreading `undefined`). -/
def combineGroups (es : List Group) : List Group → Nat → List Group
  | [], _ => []
  | n :: ns, i =>
    { edges := (es.get? i).bind Group.edges, nodes := n.nodes } :: combineGroups es ns (i + 1)

/-- `resultTransformer` (src/lib/make_remote_executor.js lines 162-179):

```js
(result) => {
  const edges = result?.edges?.map(a => ({ edges: [a] }));
  const nodes = result?.nodes?.map(a => ({ nodes: [a] }));
  if (nodes && edges) {
    const combined = nodes.map((n, index) => ({ nodes: n.nodes, ...edges[index] }));
    return combined;
  }
  return nodes ? nodes : edges;
}
```

The optional chaining makes `edges`/`nodes` absent when the raw result or the
corresponding property is absent; an array (even empty) is truthy, so the
`nodes && edges` branch fires exactly when both properties are present. -/
def resultTransformer (result : Option RawResult) : Option (List Group) :=
  let edges := (result.bind RawResult.edges).map
    (List.map fun a => ({ edges := some [a], nodes := none } : Group))
  let nodes := (result.bind RawResult.nodes).map
    (List.map fun a => ({ edges := none, nodes := some [a] } : Group))
  match nodes, edges with
  | some ns, some es => some (combineGroups es ns 0)
  | some ns, none => some ns
  | none, es => es

/-- The full batch result-mapping pipeline for one flush: the transformed
response (possibly `undefined`) is correlated against the ordered key
sequence. Used to state determinism of the mapping. -/
def resolveBatch (remote : List String → Option RawResult) (keys : List String) :
    Except String (List (Option Group)) :=
  valuesFromResultsU (resultTransformer (remote keys.dedup)) keys

/-- The key value the correlation predicate would read off a group: the
`stateFipsCode` of the first edge's node when `edges` is present, else of the
first node when `nodes` is present. -/
def groupKey (g : Group) : Option String :=
  match g.edges with
  | some (e :: _) => e.node.stateFipsCode
  | some [] => none
  | none =>
    match g.nodes with
    | some (n :: _) => n.stateFipsCode
    | _ => none

/-- A group on which the correlation predicate never throws: it exposes a
nonempty `edges` or (failing that) a nonempty `nodes` list whose first record
carries a truthy `stateFipsCode`. -/
def wellFormed (g : Group) : Bool :=
  match g.edges with
  | some (e :: _) => truthy e.node.stateFipsCode
  | some [] => false
  | none =>
    match g.nodes with
    | some (n :: _) => truthy n.stateFipsCode
    | _ => false

/-- A group whose record lacks the key field: `stateFipsCode` is absent from
the first edge's node (when `edges` is present and nonempty), or from the
first node (when `edges` is absent and `nodes` is present and nonempty). -/
def lacksKey (g : Group) : Bool :=
  match g.edges with
  | some (e :: _) => e.node.stateFipsCode == none
  | some [] => false
  | none =>
    match g.nodes with
    | some (n :: _) => n.stateFipsCode == none
    | _ => false

/-- The slot value the correlation produces for one key over a list of
well-formed groups: the first group whose `groupKey` equals the key, if any. -/
def slotFor (results : List Group) (k : String) : Option Group :=
  results.find? (fun g => groupKey g == some k)

/-! ### The remote executor (src/lib/make_remote_executor.js lines 8-26) -/

/-- The query document accepted by the executor: either a pre-serialized
string (`typeof document === 'string'`) or a structured AST.  The graphql
library's `print` serializer is external to this repository; the embedding
carries a structured document's printed form. -/
inductive Document where
  | text (s : String)
  | ast (printed : String)
  deriving DecidableEq, Repr

/-- `typeof document === 'string' ? document : print(document)`. -/
def normalizeQuery : Document → String
  | .text s => s
  | .ast printed => printed

/-- The request context; the executor reads `context.authHeader`. -/
structure ExecContext where
  authHeader : String
  deriving DecidableEq, Repr

/-- The HTTP request handed to `fetch`: url, method, the two headers set by
the executor, and the two components serialized into the POST body. -/
structure FetchRequest where
  url : String
  method : String
  authorization : String
  contentType : String
  queryText : String
  variablesJson : String
  deriving DecidableEq, Repr

/-- Outcome of one `fetch` call, `J` being the type of parsed JSON payloads:
the promise rejects with a network error, or resolves with a transport status
and a body that either parses as JSON (`some`) or does not (`none`, making the
later `.json()` call reject). -/
inductive FetchOutcome (J : Type) where
  | networkError (message : String)
  | response (status : Nat) (jsonBody : Option J)
  deriving DecidableEq, Repr

/-- Outcome of one executor invocation: the async function resolves with a
parsed JSON result or rejects with a thrown error. -/
inductive ExecOutcome (J : Type) where
  | ok (result : J)
  | thrown (message : String)
  deriving DecidableEq, Repr

/-- The single `fetch(url, {...})` request the executor builds:

```js
fetch(url, {
  method: 'POST',
  headers: { 'Authorization': context.authHeader, 'Content-Type': 'application/json' },
  body: JSON.stringify({ query, variables }),
})
``` -/
def buildRequest (url : String) (document : Document) (variablesJson : String)
    (context : ExecContext) : FetchRequest :=
  { url := url, method := "POST", authorization := context.authHeader,
    contentType := "application/json",
    queryText := normalizeQuery document, variablesJson := variablesJson }

/-- What the executor does with the settled `fetch` call: a rejected fetch
propagates; otherwise `await fetchResult.json()` is returned as the result —
the transport status is never consulted, and a body that is not JSON makes
`.json()` reject. -/
def handleFetch {J : Type} : FetchOutcome J → ExecOutcome J
  | .networkError m => .thrown m
  | .response _ (some j) => .ok j
  | .response _ none => .thrown "SyntaxError: Unexpected token in JSON"

/-- `makeRemoteExecutor` (src/lib/make_remote_executor.js lines 8-26),
parametrized by the transport (the `fetch` behavior for this call): it builds
exactly one request from the document, variables and context, performs the one
transport call on it, and handles the settled response. -/
def makeRemoteExecutor {J : Type} (url : String) (transport : FetchRequest → FetchOutcome J) :
    Document → String → ExecContext → ExecOutcome J :=
  fun document variablesJson context =>
    handleFetch (transport (buildRequest url document variablesJson context))

/-! ### The batch collection window -/

/-- Modelled from the spec: the Batch Key Collection Window and its deferred
barrier.  The batching machinery the gateway's `StateMeta.batch` resolver
relies on (`batchDelegateToSchema` and its per-execution loader) is an
external library, not code under this repository's source; the spec describes
it as an accumulator into which every sibling resolution of one execution pass
registers its key, and which flushes exactly once afterwards, issuing the one
remote call on the full ordered key list.  An execution pass is embedded as
the event trace of its registrations followed by the single deferred flush. -/
inductive BatchEvent (κ : Type) where
  | register (k : κ)
  | flush
  deriving DecidableEq, Repr

/-- Modelled from the spec: the window state — the ordered pending keys
(duplicates retained), the argument lists of the remote calls issued so far,
and the delivered batch result once the flush has run. -/
structure BatchState (κ ρ : Type) where
  pending : List κ
  calls : List (List κ)
  delivered : Option ρ
  deriving DecidableEq, Repr

/-- Modelled from the spec: one scheduler step.  A registration appends its
key to the window and issues no remote call; the flush issues the single
remote call on the accumulated ordered key list and delivers its result. -/
def stepEvent {κ ρ : Type} (remote : List κ → ρ) (s : BatchState κ ρ) :
    BatchEvent κ → BatchState κ ρ
  | .register k => { s with pending := s.pending ++ [k] }
  | .flush =>
    { s with calls := s.calls ++ [s.pending], delivered := some (remote s.pending) }

/-- Modelled from the spec: run a trace of scheduler events. -/
def runEvents {κ ρ : Type} (remote : List κ → ρ) (s : BatchState κ ρ)
    (events : List (BatchEvent κ)) : BatchState κ ρ :=
  events.foldl (stepEvent remote) s

/-- Modelled from the spec: the window opened on the first registration of a
client query execution, before any key has registered. -/
def emptyWindow {κ ρ : Type} : BatchState κ ρ :=
  { pending := [], calls := [], delivered := none }

/-- Modelled from the spec: the event trace of one execution pass — all
sibling registrations, in registration order, then the one deferred flush. -/
def passTrace {κ : Type} (ks : List κ) : List (BatchEvent κ) :=
  ks.map BatchEvent.register ++ [BatchEvent.flush]

/-! ### Concrete records used to instantiate the theorems -/

/-- A record for state FIPS code `"06"`. -/
def node06 : Node := { stateFipsCode := some "06" }

/-- A record for state FIPS code `"01"`. -/
def node01 : Node := { stateFipsCode := some "01" }

/-- An edge wrapping the `"06"` record. -/
def edge06 : Edge := { node := node06 }

/-- An edge wrapping the `"01"` record. -/
def edge01 : Edge := { node := node01 }

/-- The per-key group for `"06"` in the `nodes` shape, as `resultTransformer`
produces it. -/
def group06 : Group := { edges := none, nodes := some [node06] }

/-- The per-key group for `"01"` in the `nodes` shape. -/
def group01 : Group := { edges := none, nodes := some [node01] }

/-- The per-key group for `"02"` in the `nodes` shape. -/
def group02 : Group := { edges := none, nodes := some [{ stateFipsCode := some "02" }] }

/-- A result group exposing neither an `edges` nor a `nodes` property. -/
def shapelessGroup : Group := { edges := none, nodes := none }

/-- A result group whose record carries `stateFipsCode` with the falsy empty
string value. -/
def emptyFipsGroup : Group := { edges := none, nodes := some [{ stateFipsCode := some "" }] }

/-- A result group whose first node lacks the `stateFipsCode` field. -/
def keylessGroup : Group := { edges := none, nodes := some [{ stateFipsCode := none }] }

/-! ### Helper lemmas about the throwing map and find combinators -/

theorem mapE_ok_length {f : α → Except String β} {l : List α} {v : List β}
    (h : mapE f l = .ok v) : v.length = l.length := by
  induction l generalizing v with
  | nil => simp [mapE] at h; simp [← h]
  | cons a as ih =>
    simp only [mapE] at h
    cases hfa : f a with
    | error e => rw [hfa] at h; exact absurd h (by simp)
    | ok b =>
      rw [hfa] at h
      cases hrest : mapE f as with
      | error e => rw [hrest] at h; exact absurd h (by simp)
      | ok bs =>
        rw [hrest] at h
        cases h
        simp [ih hrest]

theorem mapE_ok_get {f : α → Except String β} {l : List α} {v : List β}
    (h : mapE f l = .ok v) (i : Nat) (hi : i < l.length) (hv : i < v.length) :
    f (l.get ⟨i, hi⟩) = .ok (v.get ⟨i, hv⟩) := by
  induction l generalizing v i with
  | nil => exact absurd hi (by simp)
  | cons a as ih =>
    simp only [mapE] at h
    cases hfa : f a with
    | error e => rw [hfa] at h; exact absurd h (by simp)
    | ok b =>
      rw [hfa] at h
      cases hrest : mapE f as with
      | error e => rw [hrest] at h; exact absurd h (by simp)
      | ok bs =>
        rw [hrest] at h
        cases h
        cases i with
        | zero => simpa using hfa
        | succ j => exact ih hrest j (by simpa using hi) (by simpa using hv)

theorem mapE_eq_map {f : α → Except String β} {l : List α} {g : α → β}
    (h : ∀ a ∈ l, f a = .ok (g a)) : mapE f l = .ok (l.map g) := by
  induction l with
  | nil => simp [mapE]
  | cons a as ih =>
    have ha : f a = .ok (g a) := h a (by simp)
    have has : mapE f as = .ok (as.map g) := ih fun x hx => h x (by simp [hx])
    simp [mapE, ha, has]

theorem mapE_ok_mem {f : α → Except String β} {l : List α} {v : List β}
    (h : mapE f l = .ok v) : ∀ a ∈ l, ∃ b, f a = .ok b := by
  induction l generalizing v with
  | nil => simp
  | cons a as ih =>
    simp only [mapE] at h
    cases hfa : f a with
    | error e => rw [hfa] at h; exact absurd h (by simp)
    | ok b =>
      rw [hfa] at h
      cases hrest : mapE f as with
      | error e => rw [hrest] at h; exact absurd h (by simp)
      | ok bs =>
        intro x hx
        rcases List.mem_cons.mp hx with rfl | hx
        · exact ⟨b, hfa⟩
        · exact ih hrest x hx

theorem mapE_eraseIdx {f : α → Except String β} {l : List α} {v : List β}
    (h : mapE f l = .ok v) (i : Nat) :
    mapE f (l.eraseIdx i) = .ok (v.eraseIdx i) := by
  induction l generalizing v i with
  | nil =>
    simp [mapE] at h
    subst h
    simp [mapE]
  | cons a as ih =>
    simp only [mapE] at h
    cases hfa : f a with
    | error e => rw [hfa] at h; exact absurd h (by simp)
    | ok b =>
      rw [hfa] at h
      cases hrest : mapE f as with
      | error e => rw [hrest] at h; exact absurd h (by simp)
      | ok bs =>
        rw [hrest] at h
        cases h
        cases i with
        | zero => simpa [List.eraseIdx] using hrest
        | succ j => simp [List.eraseIdx, mapE, hfa, hrest, ih hrest j]

theorem findE_of_all {p : α → Except String Bool} {l : List α} {q : α → Bool}
    (h : ∀ a ∈ l, p a = .ok (q a)) : findE p l = .ok (l.find? q) := by
  induction l with
  | nil => simp [findE]
  | cons a as ih =>
    have ha : p a = .ok (q a) := h a (by simp)
    cases hqa : q a with
    | true => simp [findE, ha, hqa, List.find?_cons_of_pos _ hqa]
    | false =>
      have hrest := ih fun x hx => h x (by simp [hx])
      rw [List.find?_cons_of_neg (p := q) as (by simp [hqa])]
      simp [findE, ha, hqa, hrest]

theorem findE_ok_none {p : α → Except String Bool} {l : List α}
    (h : ∀ a ∈ l, p a = .ok false) : findE p l = .ok none := by
  have hall := findE_of_all (q := fun _ => false) h
  have hnone : l.find? (fun _ => false) = none := List.find?_eq_none.mpr (by simp)
  rw [hall, hnone]

theorem findE_append_error {p : α → Except String Bool} {pre post : List α} {g : α} {e : String}
    (hpre : ∀ a ∈ pre, p a = .ok false) (hg : p g = .error e) :
    findE p (pre ++ g :: post) = .error e := by
  induction pre with
  | nil => simp [findE, hg]
  | cons a as ih =>
    have ha : p a = .ok false := hpre a (by simp)
    have := ih fun x hx => hpre x (by simp [hx])
    simp [findE, ha, this]

theorem find?_eq_some_iff_of_unique {p : α → Bool} {l : List α} {x : α}
    (hu : ∀ a ∈ l, ∀ b ∈ l, p a = true → p b = true → a = b) :
    l.find? p = some x ↔ x ∈ l ∧ p x = true := by
  constructor
  · intro h
    exact ⟨List.mem_of_find?_eq_some h, List.find?_some h⟩
  · rintro ⟨hmem, hpx⟩
    induction l with
    | nil => cases hmem
    | cons a as ih =>
      by_cases hpa : p a = true
      · have hx : x = a := hu x hmem a (by simp) hpx hpa
        subst hx
        exact List.find?_cons_of_pos _ hpa
      · have hxa : x ≠ a := fun hxa => hpa (hxa ▸ hpx)
        have hmem' : x ∈ as := by
          rcases List.mem_cons.mp hmem with rfl | h
          · exact absurd rfl hxa
          · exact h
        rw [List.find?_cons_of_neg _ (by simpa using hpa)]
        exact ih (fun a ha b hb => hu a (by simp [ha]) b (by simp [hb])) hmem'

theorem find?_perm_of_unique {p : α → Bool} {l l' : List α}
    (hperm : List.Perm l l')
    (hu : ∀ a ∈ l, ∀ b ∈ l, p a = true → p b = true → a = b) :
    l.find? p = l'.find? p := by
  have hu' : ∀ a ∈ l', ∀ b ∈ l', p a = true → p b = true → a = b := fun a ha b hb =>
    hu a (hperm.mem_iff.mpr ha) b (hperm.mem_iff.mpr hb)
  cases hfind : l.find? p with
  | none =>
    rw [List.find?_eq_none] at hfind
    symm
    rw [List.find?_eq_none]
    intro x hx
    exact hfind x (hperm.mem_iff.mpr hx)
  | some x =>
    have hx := (find?_eq_some_iff_of_unique hu).mp hfind
    symm
    exact (find?_eq_some_iff_of_unique hu').mpr ⟨hperm.mem_iff.mp hx.1, hx.2⟩

/-! ### The correlation predicate on well-formed and defective groups -/

theorem groupMatches_of_wellFormed {g : Group} (hwf : wellFormed g = true) (k : String) :
    groupMatches k g = .ok (groupKey g == some k) := by
  obtain ⟨ge, gn⟩ := g
  cases ge with
  | some el =>
    cases el with
    | nil => simp [wellFormed] at hwf
    | cons e rest =>
      cases hs : e.node.stateFipsCode with
      | none => simp [wellFormed, truthy, hs] at hwf
      | some s =>
        have hne : (s == "") = false := by
          have := hwf
          simp [wellFormed, truthy, hs] at this
          simpa using this
        simp [groupMatches, groupKey, hs, hne]
  | none =>
    cases gn with
    | some nl =>
      cases nl with
      | nil => simp [wellFormed] at hwf
      | cons n rest =>
        cases hs : n.stateFipsCode with
        | none => simp [wellFormed, truthy, hs] at hwf
        | some s =>
          have hne : (s == "") = false := by
            have := hwf
            simp [wellFormed, truthy, hs] at this
            simpa using this
          simp [groupMatches, groupKey, hs, hne]
    | none => simp [wellFormed] at hwf

theorem groupMatches_error_of_lacksKey {g : Group} (h : lacksKey g = true) (k : String) :
    groupMatches k g = .error "Need stateFipsCode in Query for edges" ∨
      groupMatches k g = .error "Need stateFipsCode in Query for nodes" := by
  obtain ⟨ge, gn⟩ := g
  cases ge with
  | some el =>
    cases el with
    | nil => simp [lacksKey] at h
    | cons e rest =>
      have hs : e.node.stateFipsCode = none := by simpa [lacksKey] using h
      left
      simp [groupMatches, hs]
  | none =>
    cases gn with
    | some nl =>
      cases nl with
      | nil => simp [lacksKey] at h
      | cons n rest =>
        have hs : n.stateFipsCode = none := by simpa [lacksKey] using h
        right
        simp [groupMatches, hs]
    | none => simp [lacksKey] at h

theorem groupMatches_error_of_shapeless {g : Group} (he : g.edges = none) (hn : g.nodes = none)
    (k : String) : groupMatches k g = .error "Query needs nodes or edges" := by
  simp [groupMatches, he, hn]

theorem mapE_ne_ok_of_error {f : α → Except String β} {l : List α} {a : α}
    (ha : a ∈ l) {e : String} (he : f a = .error e) : ∀ v, mapE f l ≠ .ok v := by
  intro v hok
  obtain ⟨b, hb⟩ := mapE_ok_mem hok a ha
  rw [he] at hb
  cases hb

theorem valuesFromResults_wf {results : List Group} {keys : List String}
    (hwf : ∀ g ∈ results, wellFormed g = true) :
    valuesFromResults results keys = .ok (keys.map (slotFor results)) := by
  unfold valuesFromResults
  refine mapE_eq_map fun k _ => ?_
  exact findE_of_all fun g hg => groupMatches_of_wellFormed (hwf g hg) k

theorem slotFor_some {results : List Group} {k : String} {g : Group}
    (h : slotFor results k = some g) : g ∈ results ∧ groupKey g = some k := by
  refine ⟨List.mem_of_find?_eq_some h, ?_⟩
  have := List.find?_some h
  simpa using this

theorem slotFor_none {results : List Group} {k : String}
    (h : slotFor results k = none) : ∀ g ∈ results, groupKey g ≠ some k := by
  intro g hg
  have := List.find?_eq_none.mp h g hg
  simpa using this

theorem slotFor_perm {results results' : List Group} {k : String}
    (hperm : List.Perm results results')
    (hu : ∀ g ∈ results, ∀ g' ∈ results, groupKey g = groupKey g' → g = g') :
    slotFor results k = slotFor results' k := by
  refine find?_perm_of_unique hperm ?_
  intro a ha b hb hpa hpb
  refine hu a ha b hb ?_
  have hka : groupKey a = some k := by simpa using hpa
  have hkb : groupKey b = some k := by simpa using hpb
  rw [hka, hkb]

/-! ### Claim theorems -/

/-- Claim C1: for every ordered key sequence handed to `valuesFromResults`
(repeated key values included), over a well-formed remote response in which
distinct groups carry distinct keys, the mapping succeeds with exactly one
slot per key in key order, slot `i` holds the result group correlated to key
`i` (it belongs to the response and its extracted key equals key `i`; an empty
slot certifies that no group carries key `i`), duplicated keys receive the
same matched record, and the whole mapped sequence is unchanged under any
reordering of the backend's records. -/
theorem C1_valuesFromResults_length_order_duplicates
    (results results' : List Group) (keys : List String)
    (hwf : ∀ g ∈ results, wellFormed g = true)
    (hu : ∀ g ∈ results, ∀ g' ∈ results, groupKey g = groupKey g' → g = g')
    (hperm : List.Perm results results') :
    ∃ vs, valuesFromResults results keys = .ok vs ∧
      vs.length = keys.length ∧
      (∀ (i : Nat) (hi : i < keys.length) (hv : i < vs.length) (g : Group),
        vs.get ⟨i, hv⟩ = some g → g ∈ results ∧ groupKey g = some (keys.get ⟨i, hi⟩)) ∧
      (∀ (i : Nat) (hi : i < keys.length) (hv : i < vs.length),
        vs.get ⟨i, hv⟩ = none → ∀ g ∈ results, groupKey g ≠ some (keys.get ⟨i, hi⟩)) ∧
      (∀ (i j : Nat) (hi : i < keys.length) (hj : j < keys.length)
        (hvi : i < vs.length) (hvj : j < vs.length),
        keys.get ⟨i, hi⟩ = keys.get ⟨j, hj⟩ → vs.get ⟨i, hvi⟩ = vs.get ⟨j, hvj⟩) ∧
      valuesFromResults results' keys = .ok vs := by
  have hget : ∀ (i : Nat) (hi : i < keys.length) (hv : i < (keys.map (slotFor results)).length),
      (keys.map (slotFor results)).get ⟨i, hv⟩ = slotFor results (keys.get ⟨i, hi⟩) := by
    intro i hi hv
    simp [List.get_eq_getElem]
  refine ⟨keys.map (slotFor results), valuesFromResults_wf hwf, by simp, ?_, ?_, ?_, ?_⟩
  · intro i hi hv g hg
    rw [hget i hi hv] at hg
    exact slotFor_some hg
  · intro i hi hv hg
    rw [hget i hi hv] at hg
    exact slotFor_none hg
  · intro i j hi hj hvi hvj hkey
    rw [hget i hi hvi, hget j hj hvj, hkey]
  · have hwf' : ∀ g ∈ results', wellFormed g = true := fun g hg =>
      hwf g (hperm.mem_iff.mpr hg)
    rw [valuesFromResults_wf hwf']
    have : keys.map (slotFor results') = keys.map (slotFor results) := by
      refine List.map_congr_left fun k _ => ?_
      exact (slotFor_perm hperm hu).symm
    rw [this]

/-- Claim C2: a key with no matching record in the remote batch response gets
an explicit empty slot (`none`, embedding the JS `undefined` that
`Array.find` yields), and every other key's slot is unaffected: erasing that
key from the key sequence erases exactly its slot from the mapped sequence,
so subsequent results are never shifted to fill the gap. -/
theorem C2_absent_key_maps_to_empty_slot
    (results : List Group) (keys : List String) (vs : List (Option Group))
    (i : Nat) (hi : i < keys.length)
    (h : valuesFromResults results keys = .ok vs)
    (hnomatch : ∀ g ∈ results, groupMatches (keys.get ⟨i, hi⟩) g = .ok false) :
    ∃ hv : i < vs.length, vs.get ⟨i, hv⟩ = none ∧
      valuesFromResults results (keys.eraseIdx i) = .ok (vs.eraseIdx i) := by
  unfold valuesFromResults at h ⊢
  have hlen := mapE_ok_length h
  have hv : i < vs.length := by rw [hlen]; exact hi
  refine ⟨hv, ?_, mapE_eraseIdx h i⟩
  have hslot := mapE_ok_get h i hi hv
  have hfind := findE_ok_none hnomatch
  rw [hfind] at hslot
  exact (Except.ok.inj hslot).symm

theorem combineGroups_length (es : List Group) (ns : List Group) (j : Nat) :
    (combineGroups es ns j).length = ns.length := by
  induction ns generalizing j with
  | nil => simp [combineGroups]
  | cons n rest ih => simp [combineGroups, ih]

theorem combineGroups_get (es : List Group) (ns : List Group) (j : Nat) (i : Nat)
    (hg : i < (combineGroups es ns j).length) (hn : i < ns.length) :
    (combineGroups es ns j).get ⟨i, hg⟩ =
      { edges := (es.get? (j + i)).bind Group.edges, nodes := (ns.get ⟨i, hn⟩).nodes } := by
  induction ns generalizing j i with
  | nil => exact absurd hn (by simp)
  | cons n rest ih =>
    cases i with
    | zero => simp [combineGroups]
    | succ m =>
      have hg' : m < (combineGroups es rest (j + 1)).length := by
        have := hg
        simpa [combineGroups] using this
      have hn' : m < rest.length := by simpa using hn
      have := ih (j + 1) m hg' hn'
      simpa [combineGroups, Nat.add_assoc, Nat.add_comm 1 m] using this

/-- Claim C3: on a remote batch response exposing both an `edges` sequence and
a `nodes` sequence of equal length `L`, `resultTransformer` returns a sequence
of exactly `L` groups whose `i`-th group combines edge `i` and node `i` by
positional index. -/
theorem C3_resultTransformer_combines_both_shapes_positionally
    (es : List Edge) (ns : List Node) (hlen : es.length = ns.length) :
    ∃ gs, resultTransformer (some { edges := some es, nodes := some ns }) = some gs ∧
      gs.length = ns.length ∧
      ∀ (i : Nat) (hg : i < gs.length) (hie : i < es.length) (hin : i < ns.length),
        gs.get ⟨i, hg⟩ =
          { edges := some [es.get ⟨i, hie⟩], nodes := some [ns.get ⟨i, hin⟩] } := by
  refine ⟨_, rfl, ?_, ?_⟩
  · simp [resultTransformer, combineGroups_length]
  · intro i hg hie hin
    have hg0 := hg
    simp only [resultTransformer, Option.bind_some] at hg0 ⊢
    have hn : i < (ns.map fun a => ({ edges := none, nodes := some [a] } : Group)).length := by
      simpa using hin
    rw [combineGroups_get _ _ 0 i hg0 hn]
    have hedge :
        ((es.map fun a => ({ edges := some [a], nodes := none } : Group)).get? (0 + i)) =
          some { edges := some [es.get ⟨i, hie⟩], nodes := none } := by
      rw [Nat.zero_add, List.get?_eq_getElem?]
      simp only [List.getElem?_map]
      rw [List.getElem?_eq_getElem hie]
      simp [List.get_eq_getElem]
    rw [hedge]
    have hnode : ((ns.map fun a => ({ edges := none, nodes := some [a] } : Group)).get ⟨i, hn⟩) =
        { edges := none, nodes := some [ns.get ⟨i, hin⟩] } := by
      simp [List.get_eq_getElem]
    rw [hnode]
    rfl

/-- Claim C4: when the correlation scan for some key examines a result group
whose record lacks the key field (`stateFipsCode` absent from the group's
first edge node, or from its first node when only `nodes` is present), the
predicate throws the descriptive missing-key error, and the whole batch
mapping fails: no mapped value sequence is delivered to any pending caller. -/
theorem C4_missing_key_field_fails_whole_window
    (pre post : List Group) (g : Group) (keys : List String) (i : Nat) (hi : i < keys.length)
    (hg : lacksKey g = true)
    (hpre : ∀ g' ∈ pre, groupMatches (keys.get ⟨i, hi⟩) g' = .ok false) :
    (groupMatches (keys.get ⟨i, hi⟩) g = .error "Need stateFipsCode in Query for edges" ∨
      groupMatches (keys.get ⟨i, hi⟩) g = .error "Need stateFipsCode in Query for nodes") ∧
    ∀ vs, valuesFromResults (pre ++ g :: post) keys ≠ .ok vs := by
  refine ⟨groupMatches_error_of_lacksKey hg _, ?_⟩
  have herr : ∃ e, groupMatches (keys.get ⟨i, hi⟩) g = .error e := by
    rcases groupMatches_error_of_lacksKey hg (keys.get ⟨i, hi⟩) with he | he
    · exact ⟨_, he⟩
    · exact ⟨_, he⟩
  obtain ⟨e, he⟩ := herr
  have hfind :=
    @findE_append_error Group (groupMatches (keys.get ⟨i, hi⟩)) pre post g e hpre he
  unfold valuesFromResults
  exact mapE_ne_ok_of_error (List.get_mem keys i hi) hfind

/-- Claim C5 is refuted at this input: the response `[group06, shapelessGroup]`
contains a result group exposing neither an `edges` nor a `nodes` sequence,
yet the batch mapping for keys `["06"]` returns normally instead of failing
with a thrown error, because `Array.find` stops at the matching first group
and the defective one is never examined. -/
theorem C5_counterexample_shapeless_group_not_fatal :
    shapelessGroup.edges = none ∧ shapelessGroup.nodes = none ∧
    valuesFromResults [group06, shapelessGroup] ["06"] = .ok [some group06] :=
  ⟨rfl, rfl, rfl⟩

/-- Claim C5 (amended): a result group exposing neither `edges` nor `nodes`
fails the batch resolution with the thrown error `"Query needs nodes or
edges"` exactly when the correlation scan examines it — that is, when for some
key every group placed before it fails to match — in which case no mapped
value sequence is delivered; and a whole response exposing neither shape
normalizes to an absent sequence, on which correlating the (nonempty) key
sequence likewise delivers no mapped value sequence. -/
theorem C5_amended_shapeless_fails_when_examined
    (pre post : List Group) (g : Group) (keys : List String) (i : Nat) (hi : i < keys.length)
    (he : g.edges = none) (hn : g.nodes = none)
    (hpre : ∀ g' ∈ pre, groupMatches (keys.get ⟨i, hi⟩) g' = .ok false) :
    groupMatches (keys.get ⟨i, hi⟩) g = .error "Query needs nodes or edges" ∧
    (∀ vs, valuesFromResults (pre ++ g :: post) keys ≠ .ok vs) ∧
    resultTransformer (some { edges := none, nodes := none }) = none ∧
    (∀ vs, valuesFromResultsU
        (resultTransformer (some { edges := none, nodes := none })) keys ≠ .ok vs) := by
  have hgm := groupMatches_error_of_shapeless he hn (keys.get ⟨i, hi⟩)
  refine ⟨hgm, ?_, rfl, ?_⟩
  · have hfind :=
      @findE_append_error Group (groupMatches (keys.get ⟨i, hi⟩)) pre post g
        "Query needs nodes or edges" hpre hgm
    unfold valuesFromResults
    exact mapE_ne_ok_of_error (List.get_mem keys i hi) hfind
  · unfold valuesFromResultsU
    exact mapE_ne_ok_of_error (List.get_mem keys i hi) rfl

/-- Claim C6 is refuted at this input: a transport resolving with status 500
(a non-success status) and a JSON body is returned by the executor as an
ordinary successful result — the source never consults `fetchResult.status`
and attaches no backend identifier to any failure. -/
theorem C6_counterexample_non_success_status_returned_ok :
    makeRemoteExecutor (J := String) "https://helloworld-capsc6nslq-uc.a.run.app/graphql"
        (fun _ => FetchOutcome.response 500 (some "errors payload"))
        (Document.text "query heartbeat") "null"
        { authHeader := "Bearer my-app-to-app-token" } = ExecOutcome.ok "errors payload" ∧
    ¬(200 ≤ 500 ∧ 500 < 300) :=
  ⟨rfl, by decide⟩

/-- Claim C6 (amended): a network failure surfaces as the transport's own
rejection (carrying no backend identifier) and a body that fails to parse as
JSON surfaces as the parse rejection; but the transport status is never
consulted — any response whose body parses as JSON, success status or not, is
returned to the caller as an ordinary successful result. -/
theorem C6_amended_executor_outcomes {J : Type} (url : String)
    (transport : FetchRequest → FetchOutcome J) (document : Document)
    (variablesJson : String) (context : ExecContext) :
    (∀ m, transport (buildRequest url document variablesJson context) =
        FetchOutcome.networkError m →
      makeRemoteExecutor url transport document variablesJson context = .thrown m) ∧
    (∀ (status : Nat) (j : J),
      transport (buildRequest url document variablesJson context) =
        FetchOutcome.response status (some j) →
      makeRemoteExecutor url transport document variablesJson context = .ok j) ∧
    (∀ (status : Nat),
      transport (buildRequest url document variablesJson context) =
        FetchOutcome.response status none →
      makeRemoteExecutor url transport document variablesJson context =
        .thrown "SyntaxError: Unexpected token in JSON") := by
  refine ⟨?_, ?_, ?_⟩
  · intro m hm
    simp [makeRemoteExecutor, hm, handleFetch]
  · intro status j hj
    simp [makeRemoteExecutor, hj, handleFetch]
  · intro status hs
    simp [makeRemoteExecutor, hs, handleFetch]

theorem runEvents_append {κ ρ : Type} (remote : List κ → ρ) (s : BatchState κ ρ)
    (a b : List (BatchEvent κ)) :
    runEvents remote s (a ++ b) = runEvents remote (runEvents remote s a) b := by
  unfold runEvents
  exact List.foldl_append _ _ _ _

theorem runEvents_map_register {κ ρ : Type} (remote : List κ → ρ) (s : BatchState κ ρ)
    (ks : List κ) :
    runEvents remote s (ks.map BatchEvent.register) =
      { s with pending := s.pending ++ ks } := by
  induction ks generalizing s with
  | nil => simp [runEvents]
  | cons k rest ih =>
    show runEvents remote (stepEvent remote s (.register k)) (rest.map .register) = _
    rw [ih]
    simp [stepEvent]

/-- Claim C7: for a set of sibling resolution requests registering their keys
into the same batch window during one execution pass, the deferred flush
issues exactly one remote batched call — its argument list is the full ordered
key sequence, so it fires only after every sibling registration of the pass
has completed — and delivers that single call's result. -/
theorem C7_one_pass_one_remote_call {κ ρ : Type} (remote : List κ → ρ) (ks : List κ)
    (hne : ks ≠ []) :
    (runEvents remote (emptyWindow (κ := κ) (ρ := ρ)) (passTrace ks)).calls = [ks] ∧
    (runEvents remote (emptyWindow (κ := κ) (ρ := ρ)) (passTrace ks)).calls.length = 1 ∧
    (runEvents remote (emptyWindow (κ := κ) (ρ := ρ)) (passTrace ks)).delivered =
      some (remote ks) := by
  have hrun : runEvents remote (emptyWindow (κ := κ) (ρ := ρ)) (passTrace ks) =
      { pending := ks, calls := [ks], delivered := some (remote ks) } := by
    unfold passTrace
    rw [runEvents_append, runEvents_map_register]
    simp [runEvents, stepEvent, emptyWindow]
  rw [hrun]
  exact ⟨rfl, rfl, rfl⟩

/-- Claim C8: every executor invocation attaches the request context's
authorization credential as the `Authorization` header of the single POST
request handed to the transport, and the executor's outcome is exactly the
handling of that one transport call. -/
theorem C8_authorization_header_attached {J : Type} (url : String)
    (transport : FetchRequest → FetchOutcome J) (document : Document)
    (variablesJson : String) (context : ExecContext) :
    (buildRequest url document variablesJson context).authorization = context.authHeader ∧
    (buildRequest url document variablesJson context).method = "POST" ∧
    makeRemoteExecutor url transport document variablesJson context =
      handleFetch (transport (buildRequest url document variablesJson context)) :=
  ⟨rfl, rfl, rfl⟩

/-- Claim C9: the batch result-mapping pipeline (`resultTransformer` followed
by the key correlation) is a deterministic function of the key sequence and
the remote backend's response: two invocations with equal key sequences
against backends that answer identically yield identical mapped results. -/
theorem C9_resolveBatch_deterministic
    (remote remote' : List String → Option RawResult) (keys keys' : List String)
    (hr : ∀ ks, remote ks = remote' ks) (hk : keys = keys') :
    resolveBatch remote keys = resolveBatch remote' keys' := by
  subst hk
  unfold resolveBatch
  rw [hr]

/-- Claim C10: a remote batch response whose records all carry the key field
with a falsy value (here the empty string) still makes the correlation throw
the missing-key-field error, because the source tests the field by truthiness
(`!element.nodes[0].stateFipsCode`) rather than by existence. -/
theorem C10_falsy_key_value_triggers_missing_key_error :
    emptyFipsGroup.nodes = some [{ stateFipsCode := some "" }] ∧
    valuesFromResults [emptyFipsGroup] ["06"] =
      .error "Need stateFipsCode in Query for nodes" :=
  ⟨rfl, rfl⟩

/-! ### Witnesses: the theorems applied at concrete inputs -/

theorem C1_witness : ∃ vs,
    valuesFromResults [group01, group06, group02] ["06", "02", "01", "01"] = .ok vs ∧
    vs.length = 4 ∧
    valuesFromResults [group06, group02, group01] ["06", "02", "01", "01"] = .ok vs := by
  obtain ⟨vs, h1, hlen, _, _, _, hperm⟩ :=
    C1_valuesFromResults_length_order_duplicates [group01, group06, group02]
      [group06, group02, group01] ["06", "02", "01", "01"]
      (by decide) (by decide) (by decide)
  exact ⟨vs, h1, by simpa using hlen, hperm⟩

theorem C2_witness : ∃ hv : (1 : Nat) < ([some group06, none] : List (Option Group)).length,
    ([some group06, none] : List (Option Group)).get ⟨1, hv⟩ = none ∧
    valuesFromResults [group06] ((["06", "31"] : List String).eraseIdx 1) =
      .ok (([some group06, none] : List (Option Group)).eraseIdx 1) :=
  C2_absent_key_maps_to_empty_slot [group06] ["06", "31"] [some group06, none] 1
    (by decide) rfl (by decide)

theorem C3_witness : ∃ gs,
    resultTransformer
        (some { edges := some [edge06, edge01], nodes := some [node06, node01] }) = some gs ∧
    gs.length = ([node06, node01] : List Node).length ∧
    ∀ (i : Nat) (hg : i < gs.length) (hie : i < ([edge06, edge01] : List Edge).length)
      (hin : i < ([node06, node01] : List Node).length),
      gs.get ⟨i, hg⟩ =
        { edges := some [([edge06, edge01] : List Edge).get ⟨i, hie⟩],
          nodes := some [([node06, node01] : List Node).get ⟨i, hin⟩] } :=
  C3_resultTransformer_combines_both_shapes_positionally [edge06, edge01] [node06, node01]
    (by decide)

theorem C4_witness :
    (groupMatches ((["06", "31"] : List String).get ⟨1, by decide⟩) keylessGroup =
        .error "Need stateFipsCode in Query for edges" ∨
      groupMatches ((["06", "31"] : List String).get ⟨1, by decide⟩) keylessGroup =
        .error "Need stateFipsCode in Query for nodes") ∧
    ∀ vs, valuesFromResults ([group06] ++ keylessGroup :: []) ["06", "31"] ≠ .ok vs :=
  C4_missing_key_field_fails_whole_window [group06] [] keylessGroup ["06", "31"] 1
    (by decide) (by decide) (by decide)

theorem C5_witness :
    groupMatches ((["06", "31"] : List String).get ⟨1, by decide⟩) shapelessGroup =
      .error "Query needs nodes or edges" ∧
    (∀ vs, valuesFromResults ([group06] ++ shapelessGroup :: []) ["06", "31"] ≠ .ok vs) ∧
    resultTransformer (some { edges := none, nodes := none }) = none ∧
    (∀ vs, valuesFromResultsU
        (resultTransformer (some { edges := none, nodes := none })) ["06", "31"] ≠ .ok vs) :=
  C5_amended_shapeless_fails_when_examined [group06] [] shapelessGroup ["06", "31"] 1
    (by decide) rfl rfl (by decide)

theorem C6_witness :
    makeRemoteExecutor (J := String) "https://vaccination-capsc6nslq-uc.a.run.app/graphql"
        (fun _ => FetchOutcome.response 503 (some "service body"))
        (Document.ast "query hey") "null"
        { authHeader := "Bearer tok" } = ExecOutcome.ok "service body" :=
  (C6_amended_executor_outcomes "https://vaccination-capsc6nslq-uc.a.run.app/graphql"
      (fun _ => FetchOutcome.response 503 (some "service body"))
      (Document.ast "query hey") "null" { authHeader := "Bearer tok" }).2.1 503
    "service body" rfl

theorem C7_witness :
    (runEvents (fun ks => ks.length) (emptyWindow (κ := String) (ρ := Nat))
        (passTrace ["06", "02"])).calls = [["06", "02"]] ∧
    (runEvents (fun ks => ks.length) (emptyWindow (κ := String) (ρ := Nat))
        (passTrace ["06", "02"])).calls.length = 1 ∧
    (runEvents (fun ks => ks.length) (emptyWindow (κ := String) (ρ := Nat))
        (passTrace ["06", "02"])).delivered = some 2 :=
  C7_one_pass_one_remote_call (fun ks => ks.length) ["06", "02"] (by decide)

theorem C9_witness :
    resolveBatch (fun _ => some { edges := none, nodes := some [node06] }) ["06"] =
      resolveBatch (fun _ => some { edges := none, nodes := some [node06] }) ["06"] :=
  C9_resolveBatch_deterministic _ _ _ _ (fun _ => rfl) rfl

end RemoteDelegation
